import Mathlib

/-!
Shallow embedding of `pkg/cmd/pr/list/http.go` (functions `fetchPullRequests`
and the tail of `searchPullRequests`).

Go-to-Lean conventions used throughout:
* Go `int` is `Int`; list lengths are coerced to `Int` where the Go code
  compares them with an `int`.
* `api.PullRequest` is reduced to the fields the code inspects: `Number`
  (`Int`) and `AutoMergeRequest` (a pointer, modelled `Option Unit`, so that
  the Go test `pr.AutoMergeRequest == nil` becomes `Option.isNone`), plus an
  opaque `payload` standing for every other field.
* the dedup map `check : map[int]struct\x7b\x7d` is modelled as the list of its
  keys, with `∈` as the lookup.
* a Go function returning `(*T, error)` is modelled as `Except ε T`:
  `Except.error e` is the pair `(nil, e)`, `Except.ok v` the pair `(&v, nil)`.
* the unbounded `for` loop is given explicit fuel; running out of fuel is
  `Option.none` at the outside, so claims quantify over terminating runs.
* alongside its result, the loop returns the ghost trace of page requests it
  issued (page size, cursor, and the output length at the moment of the
  request); the trace does not influence the computation.
-/

namespace PrList

/-- Record type: the two fields of `api.PullRequest` the loop inspects, plus an
opaque payload standing for all the others. -/
structure PullRequest where
  number : Int
  autoMergeRequest : Option Unit
  payload : Nat
  deriving DecidableEq

/-- Mirror of the anonymous `PageInfo` struct in `responsePage`. -/
structure PageInfo where
  hasNextPage : Bool
  endCursor : String
  deriving DecidableEq

/-- Mirror of `responsePage` in http.go. -/
structure ResponsePage where
  nodes : List PullRequest
  pageInfo : PageInfo
  totalCount : Int
  deriving DecidableEq

/-- Mirror of `api.PullRequestAndTotalCount` (the fields used in http.go). -/
structure PullRequestAndTotalCount where
  totalCount : Int
  pullRequests : List PullRequest
  totalCountIsUpperBound : Bool
  searchCapped : Bool
  deriving DecidableEq

/-- The `requester` interface: `Request(limit int, endCursor *string)
(*responsePage, error)`.  Implementations are modelled as pure functions of
their two arguments. -/
def Requester (ε : Type) : Type :=
  Int → Option String → Except ε ResponsePage

/-- The mutable locals of the fetch loop: `res`, the dedup map `check`
(modelled by its key list) and the `removed` counter. -/
structure LoopState where
  res : PullRequestAndTotalCount
  check : List Int
  removed : Int
  deriving DecidableEq

/-- Ghost record of one call to `r.Request`: the page size and cursor passed,
plus the length `len(res.PullRequests)` had at the moment of the call. -/
structure PageRequest where
  pageLimit : Int
  endCursor : Option String
  outLen : Nat
  deriving DecidableEq

/-- The local helper `min` at the bottom of http.go. -/
def goMin (a b : Int) : Int :=
  if a < b then a else b

/-- The filter test on line 55:
`autoMergeStatus != nil && (*autoMergeStatus == (pr.AutoMergeRequest == nil))`.
Returns `true` when the record is removed by the inclusion predicate. -/
def removesRecord (autoMergeStatus : Option Bool) (pr : PullRequest) : Bool :=
  match autoMergeStatus with
  | none => false
  | some status => status == pr.autoMergeRequest.isNone

/-- One iteration of the inner `for _, pr := range prData.Nodes` body
(lines 49-69).  The boolean is `true` when the body executed `break loop`. -/
def processNode (autoMergeStatus : Option Bool) (limit : Int) (s : LoopState)
    (pr : PullRequest) : LoopState × Bool :=
  if pr.number ∈ s.check ∧ 0 < pr.number then
    (s, false)
  else if removesRecord autoMergeStatus pr then
    ({ s with check := pr.number :: s.check,
              removed := s.removed + 1,
              res := { s.res with totalCountIsUpperBound := true } }, false)
  else
    let res' :=
      if (s.res.pullRequests.length : Int) < limit then
        { s.res with pullRequests := s.res.pullRequests ++ [pr] }
      else s.res
    ({ s with check := pr.number :: s.check, res := res' },
      decide ((res'.pullRequests.length : Int) = limit) && autoMergeStatus.isNone)

/-- The whole inner loop over a page's nodes; stops early when a body
iteration executed `break loop` and reports that through the boolean. -/
def processNodes (autoMergeStatus : Option Bool) (limit : Int) :
    LoopState → List PullRequest → LoopState × Bool
  | s, [] => (s, false)
  | s, pr :: rest =>
    let step := processNode autoMergeStatus limit s pr
    if step.2 then (step.1, true)
    else processNodes autoMergeStatus limit step.1 rest

/-- Line 47: `res.TotalCount = prData.TotalCount`. -/
def setTotal (s : LoopState) (t : Int) : LoopState :=
  { s with res := { s.res with totalCount := t } }

/-- Line 75: `res.TotalCountIsUpperBound = false`. -/
def clearUpper (s : LoopState) : LoopState :=
  { s with res := { s.res with totalCountIsUpperBound := false } }

/-- The outer `for` loop of `fetchPullRequests` (lines 41-86), with fuel.
Returns the final loop state (before the `res.TotalCount -= removed`
finalization) or the propagated requester error, together with the ghost
trace of requests issued.  `none` means the fuel ran out. -/
def fetchLoop {ε : Type} (r : Requester ε) (limit : Int)
    (autoMergeStatus : Option Bool) :
    Nat → Int → Option String → LoopState →
      Option (Except ε LoopState) × List PageRequest
  | 0, _, _, _ => (none, [])
  | fuel + 1, pageLimit, endCursor, s =>
    let req : PageRequest := ⟨pageLimit, endCursor, s.res.pullRequests.length⟩
    match r pageLimit endCursor with
    | .error e => (some (.error e), [req])
    | .ok prData =>
      let step := processNodes autoMergeStatus limit
        (setTotal s prData.totalCount) prData.nodes
      if step.2 then
        (some (.ok step.1), [req])
      else if !prData.pageInfo.hasNextPage then
        (some (.ok (clearUpper step.1)), [req])
      else if (step.1.res.pullRequests.length : Int) = limit then
        (some (.ok step.1), [req])
      else
        let pageLimit' :=
          if autoMergeStatus.isNone then
            goMin pageLimit (limit - step.1.res.pullRequests.length)
          else pageLimit
        let rest := fetchLoop r limit autoMergeStatus fuel pageLimit'
          (some prData.pageInfo.endCursor) step.1
        (rest.1, req :: rest.2)

/-- The initial page size (lines 31-35). -/
def initialPageLimit (limit : Int) (autoMergeStatus : Option Bool) : Int :=
  if autoMergeStatus.isNone then goMin 100 limit else 100

/-- The initial loop state (lines 36-39):
`res := api.PullRequestAndTotalCount\x7bTotalCount: -1\x7d`. -/
def initialState : LoopState :=
  { res := { totalCount := -1, pullRequests := [],
             totalCountIsUpperBound := false, searchCapped := false },
    check := [], removed := 0 }

/-- The finalization on line 88: `res.TotalCount -= removed`. -/
def finalizeResult (s : LoopState) : PullRequestAndTotalCount :=
  { s.res with totalCount := s.res.totalCount - s.removed }

/-- Full `fetchPullRequests` (lines 30-90), with fuel and ghost trace. -/
def fetchPullRequests {ε : Type} (r : Requester ε) (limit : Int)
    (autoMergeStatus : Option Bool) (fuel : Nat) :
    Option (Except ε PullRequestAndTotalCount) × List PageRequest :=
  let out := fetchLoop r limit autoMergeStatus fuel
    (initialPageLimit limit autoMergeStatus) none initialState
  (out.1.map (fun x => x.map finalizeResult), out.2)

/-- The nodes the (pure) requester returns for one traced request. -/
def responseNodes {ε : Type} (r : Requester ε) (req : PageRequest) :
    List PullRequest :=
  match r req.pageLimit req.endCursor with
  | .ok p => p.nodes
  | .error _ => []

/-- The concatenated stream of records behind a trace of page requests. -/
def fetchedStream {ε : Type} (r : Requester ε) (reqs : List PageRequest) :
    List PullRequest :=
  (reqs.map (responseNodes r)).flatten

/-- Outcome of a Go call that may panic: either a `(res *T, err error)` pair
or a runtime nil-pointer-dereference panic. -/
inductive GoCallOutcome (α ε : Type) where
  | ret (res : Option α) (err : Option ε)
  | nilDerefPanic
  deriving DecidableEq

/-- Tail of `searchPullRequests` (lines 270-272): call `fetchPullRequests`
and then execute `res.SearchCapped = limit > 1000` on the returned pointer.
When `fetchPullRequests` returned `(nil, err)` that assignment dereferences a
nil pointer, which is a runtime panic. -/
def searchPullRequests {ε : Type} (r : Requester ε) (limit : Int)
    (autoMergeStatus : Option Bool) (fuel : Nat) :
    Option (GoCallOutcome PullRequestAndTotalCount ε) :=
  ((fetchPullRequests r limit autoMergeStatus fuel).1).map (fun out =>
    match out with
    | .error _ => GoCallOutcome.nilDerefPanic
    | .ok res =>
      GoCallOutcome.ret (some { res with searchCapped := decide (limit > 1000) })
        none)

/-! ### Basic facts about one inner-loop iteration -/

/-- Exhaustive description of the four branches of the inner-loop body. -/
theorem processNode_cases (a : Option Bool) (limit : Int) (s : LoopState)
    (pr : PullRequest) :
    (pr.number ∈ s.check ∧ 0 < pr.number ∧ processNode a limit s pr = (s, false))
    ∨ (¬(pr.number ∈ s.check ∧ 0 < pr.number) ∧ removesRecord a pr = true ∧
        processNode a limit s pr =
          ({ s with check := pr.number :: s.check,
                    removed := s.removed + 1,
                    res := { s.res with totalCountIsUpperBound := true } }, false))
    ∨ (¬(pr.number ∈ s.check ∧ 0 < pr.number) ∧ removesRecord a pr = false ∧
        (s.res.pullRequests.length : Int) < limit ∧
        processNode a limit s pr =
          ({ s with check := pr.number :: s.check,
                    res := { s.res with
                      pullRequests := s.res.pullRequests ++ [pr] } },
            decide (((s.res.pullRequests ++ [pr]).length : Int) = limit)
              && a.isNone))
    ∨ (¬(pr.number ∈ s.check ∧ 0 < pr.number) ∧ removesRecord a pr = false ∧
        ¬((s.res.pullRequests.length : Int) < limit) ∧
        processNode a limit s pr =
          ({ s with check := pr.number :: s.check },
            decide ((s.res.pullRequests.length : Int) = limit) && a.isNone)) := by
  by_cases h1 : pr.number ∈ s.check ∧ 0 < pr.number
  · exact Or.inl ⟨h1.1, h1.2, by simp [processNode, h1]⟩
  · refine Or.inr ?_
    by_cases h2 : removesRecord a pr
    · exact Or.inl ⟨h1, h2, by simp [processNode, h1, h2]⟩
    · refine Or.inr ?_
      by_cases h3 : (s.res.pullRequests.length : Int) < limit
      · exact Or.inl ⟨h1, eq_false_of_ne_true h2, h3, by
          simp [processNode, h1, h2, h3]⟩
      · exact Or.inr ⟨h1, eq_false_of_ne_true h2, h3, by
          simp [processNode, h1, h2, h3]⟩

theorem processNode_totalCount (a : Option Bool) (limit : Int) (s : LoopState)
    (pr : PullRequest) :
    ((processNode a limit s pr).1).res.totalCount = s.res.totalCount := by
  rcases processNode_cases a limit s pr with ⟨_, _, h⟩ | ⟨_, _, h⟩ |
    ⟨_, _, _, h⟩ | ⟨_, _, _, h⟩ <;> rw [h]

theorem processNode_check_mono (a : Option Bool) (limit : Int) (s : LoopState)
    (pr : PullRequest) :
    s.check ⊆ ((processNode a limit s pr).1).check := by
  rcases processNode_cases a limit s pr with ⟨_, _, h⟩ | ⟨_, _, h⟩ |
    ⟨_, _, _, h⟩ | ⟨_, _, _, h⟩ <;> rw [h] <;> simp [List.subset_cons_of_subset]

theorem processNode_some_nobreak (b : Bool) (limit : Int) (s : LoopState)
    (pr : PullRequest) :
    (processNode (some b) limit s pr).2 = false := by
  rcases processNode_cases (some b) limit s pr with ⟨_, _, h⟩ | ⟨_, _, h⟩ |
    ⟨_, _, _, h⟩ | ⟨_, _, _, h⟩ <;> rw [h] <;> simp

theorem processNode_skip (a : Option Bool) (limit : Int) (s : LoopState)
    (pr : PullRequest) (h1 : pr.number ∈ s.check) (h2 : 0 < pr.number) :
    processNode a limit s pr = (s, false) := by
  simp [processNode, h1, h2]

theorem processNode_len_le (a : Option Bool) (limit : Int) (s : LoopState)
    (pr : PullRequest) (h : (s.res.pullRequests.length : Int) ≤ limit) :
    (((processNode a limit s pr).1).res.pullRequests.length : Int) ≤ limit := by
  rcases processNode_cases a limit s pr with ⟨_, _, he⟩ | ⟨_, _, he⟩ |
    ⟨_, _, hlt, he⟩ | ⟨_, _, _, he⟩ <;> rw [he] <;> simp at h ⊢ <;> omega

theorem processNode_none_flag (limit : Int) (s : LoopState) (pr : PullRequest) :
    ((processNode none limit s pr).1).res.totalCountIsUpperBound
        = s.res.totalCountIsUpperBound
      ∧ ((processNode none limit s pr).1).removed = s.removed := by
  rcases processNode_cases none limit s pr with ⟨_, _, he⟩ | ⟨_, hrm, he⟩ |
    ⟨_, _, _, he⟩ | ⟨_, _, _, he⟩
  · rw [he]; exact ⟨rfl, rfl⟩
  · exact absurd hrm (by simp [removesRecord])
  · rw [he]; exact ⟨rfl, rfl⟩
  · rw [he]; exact ⟨rfl, rfl⟩

theorem processNode_flag_removed (a : Option Bool) (limit : Int) (s : LoopState)
    (pr : PullRequest)
    (h : s.res.totalCountIsUpperBound = decide (0 < s.removed) ∧ 0 ≤ s.removed) :
    ((processNode a limit s pr).1).res.totalCountIsUpperBound
        = decide (0 < ((processNode a limit s pr).1).removed)
      ∧ 0 ≤ ((processNode a limit s pr).1).removed := by
  rcases processNode_cases a limit s pr with ⟨_, _, he⟩ | ⟨_, _, he⟩ |
    ⟨_, _, _, he⟩ | ⟨_, _, _, he⟩ <;> rw [he]
  · exact h
  · have hpos : (0 : Int) < s.removed + 1 := by omega
    exact ⟨(decide_eq_true hpos).symm, le_of_lt hpos⟩
  · exact h
  · exact h

/-! ### Facts about the inner loop over a whole page -/

theorem processNodes_cons (a : Option Bool) (limit : Int) (s : LoopState)
    (pr : PullRequest) (rest : List PullRequest) :
    processNodes a limit s (pr :: rest) =
      if (processNode a limit s pr).2 then ((processNode a limit s pr).1, true)
      else processNodes a limit ((processNode a limit s pr).1) rest := rfl

theorem processNodes_cons_true (a : Option Bool) (limit : Int) (s : LoopState)
    (pr : PullRequest) (rest : List PullRequest)
    (hb : (processNode a limit s pr).2 = true) :
    processNodes a limit s (pr :: rest) = ((processNode a limit s pr).1, true) := by
  rw [processNodes_cons, if_pos hb]

theorem processNodes_cons_false (a : Option Bool) (limit : Int) (s : LoopState)
    (pr : PullRequest) (rest : List PullRequest)
    (hb : (processNode a limit s pr).2 = false) :
    processNodes a limit s (pr :: rest) =
      processNodes a limit ((processNode a limit s pr).1) rest := by
  rw [processNodes_cons, if_neg (by simp [hb])]

/-- Any predicate preserved by the body is preserved by the whole inner loop. -/
theorem processNodes_ind (a : Option Bool) (limit : Int) (P : LoopState → Prop)
    (hstep : ∀ s pr, P s → P ((processNode a limit s pr).1)) :
    ∀ (l : List PullRequest) (s : LoopState), P s →
      P ((processNodes a limit s l).1)
  | [], s, hs => hs
  | pr :: rest, s, hs => by
    cases hb : (processNode a limit s pr).2
    · rw [processNodes_cons_false a limit s pr rest hb]
      exact processNodes_ind a limit P hstep rest _ (hstep s pr hs)
    · rw [processNodes_cons_true a limit s pr rest hb]
      exact hstep s pr hs

theorem processNodes_totalCount (a : Option Bool) (limit : Int) :
    ∀ (l : List PullRequest) (s : LoopState),
      ((processNodes a limit s l).1).res.totalCount = s.res.totalCount
  | [], s => rfl
  | pr :: rest, s => by
    cases hb : (processNode a limit s pr).2
    · rw [processNodes_cons_false a limit s pr rest hb,
        processNodes_totalCount a limit rest _, processNode_totalCount]
    · rw [processNodes_cons_true a limit s pr rest hb]
      exact processNode_totalCount a limit s pr

theorem processNodes_some_nobreak (b : Bool) (limit : Int) :
    ∀ (l : List PullRequest) (s : LoopState),
      (processNodes (some b) limit s l).2 = false
  | [], _ => rfl
  | pr :: rest, s => by
    rw [processNodes_cons_false (some b) limit s pr rest
      (processNode_some_nobreak b limit s pr)]
    exact processNodes_some_nobreak b limit rest _

/-! ### Branch-by-branch unfolding of the outer loop -/

theorem fetchLoop_succ_error {ε : Type} (r : Requester ε) (limit : Int)
    (a : Option Bool) (fuel : Nat) (pl : Int) (cur : Option String)
    (s : LoopState) (e : ε) (hr : r pl cur = .error e) :
    fetchLoop r limit a (fuel + 1) pl cur s =
      (some (.error e), [⟨pl, cur, s.res.pullRequests.length⟩]) := by
  simp [fetchLoop, hr]

theorem fetchLoop_succ_brk {ε : Type} (r : Requester ε) (limit : Int)
    (a : Option Bool) (fuel : Nat) (pl : Int) (cur : Option String)
    (s : LoopState) (p : ResponsePage) (hr : r pl cur = .ok p)
    (hb : (processNodes a limit (setTotal s p.totalCount) p.nodes).2 = true) :
    fetchLoop r limit a (fuel + 1) pl cur s =
      (some (.ok (processNodes a limit (setTotal s p.totalCount) p.nodes).1),
        [⟨pl, cur, s.res.pullRequests.length⟩]) := by
  simp [fetchLoop, hr, hb]

theorem fetchLoop_succ_last {ε : Type} (r : Requester ε) (limit : Int)
    (a : Option Bool) (fuel : Nat) (pl : Int) (cur : Option String)
    (s : LoopState) (p : ResponsePage) (hr : r pl cur = .ok p)
    (hb : (processNodes a limit (setTotal s p.totalCount) p.nodes).2 = false)
    (hn : p.pageInfo.hasNextPage = false) :
    fetchLoop r limit a (fuel + 1) pl cur s =
      (some (.ok (clearUpper
          (processNodes a limit (setTotal s p.totalCount) p.nodes).1)),
        [⟨pl, cur, s.res.pullRequests.length⟩]) := by
  simp [fetchLoop, hr, hb, hn]

theorem fetchLoop_succ_limit {ε : Type} (r : Requester ε) (limit : Int)
    (a : Option Bool) (fuel : Nat) (pl : Int) (cur : Option String)
    (s : LoopState) (p : ResponsePage) (hr : r pl cur = .ok p)
    (hb : (processNodes a limit (setTotal s p.totalCount) p.nodes).2 = false)
    (hn : p.pageInfo.hasNextPage = true)
    (hl : (((processNodes a limit (setTotal s p.totalCount) p.nodes).1).res.pullRequests.length : Int)
        = limit) :
    fetchLoop r limit a (fuel + 1) pl cur s =
      (some (.ok (processNodes a limit (setTotal s p.totalCount) p.nodes).1),
        [⟨pl, cur, s.res.pullRequests.length⟩]) := by
  simp [fetchLoop, hr, hb, hn, hl]

theorem fetchLoop_succ_next {ε : Type} (r : Requester ε) (limit : Int)
    (a : Option Bool) (fuel : Nat) (pl : Int) (cur : Option String)
    (s : LoopState) (p : ResponsePage) (hr : r pl cur = .ok p)
    (hb : (processNodes a limit (setTotal s p.totalCount) p.nodes).2 = false)
    (hn : p.pageInfo.hasNextPage = true)
    (hl : ¬((((processNodes a limit (setTotal s p.totalCount) p.nodes).1).res.pullRequests.length : Int)
        = limit)) :
    fetchLoop r limit a (fuel + 1) pl cur s =
      ((fetchLoop r limit a fuel
          (if a.isNone then
            goMin pl (limit -
              ((processNodes a limit (setTotal s p.totalCount) p.nodes).1).res.pullRequests.length)
           else pl)
          (some p.pageInfo.endCursor)
          (processNodes a limit (setTotal s p.totalCount) p.nodes).1).1,
        ⟨pl, cur, s.res.pullRequests.length⟩ ::
          (fetchLoop r limit a fuel
            (if a.isNone then
              goMin pl (limit -
                ((processNodes a limit (setTotal s p.totalCount) p.nodes).1).res.pullRequests.length)
             else pl)
            (some p.pageInfo.endCursor)
            (processNodes a limit (setTotal s p.totalCount) p.nodes).1).2) := by
  simp [fetchLoop, hr, hb, hn, hl]

/-- Exhaustive description of one successful unfolding of the outer loop. -/
theorem fetchLoop_succ_ok_cases {ε : Type} (r : Requester ε) (limit : Int)
    (a : Option Bool) (fuel : Nat) (pl : Int) (cur : Option String)
    (s sF : LoopState) (tr : List PageRequest)
    (h : fetchLoop r limit a (fuel + 1) pl cur s = (some (.ok sF), tr)) :
    ∃ p, r pl cur = .ok p ∧
      (((processNodes a limit (setTotal s p.totalCount) p.nodes).2 = true ∧
          sF = (processNodes a limit (setTotal s p.totalCount) p.nodes).1 ∧
          tr = [⟨pl, cur, s.res.pullRequests.length⟩])
        ∨ ((processNodes a limit (setTotal s p.totalCount) p.nodes).2 = false ∧
            p.pageInfo.hasNextPage = false ∧
            sF = clearUpper (processNodes a limit (setTotal s p.totalCount) p.nodes).1 ∧
            tr = [⟨pl, cur, s.res.pullRequests.length⟩])
        ∨ ((processNodes a limit (setTotal s p.totalCount) p.nodes).2 = false ∧
            p.pageInfo.hasNextPage = true ∧
            (((processNodes a limit (setTotal s p.totalCount) p.nodes).1).res.pullRequests.length : Int) = limit ∧
            sF = (processNodes a limit (setTotal s p.totalCount) p.nodes).1 ∧
            tr = [⟨pl, cur, s.res.pullRequests.length⟩])
        ∨ ((processNodes a limit (setTotal s p.totalCount) p.nodes).2 = false ∧
            p.pageInfo.hasNextPage = true ∧
            ¬((((processNodes a limit (setTotal s p.totalCount) p.nodes).1).res.pullRequests.length : Int) = limit) ∧
            ∃ rest, tr = ⟨pl, cur, s.res.pullRequests.length⟩ :: rest ∧
              fetchLoop r limit a fuel
                (if a.isNone then
                  goMin pl (limit -
                    ((processNodes a limit (setTotal s p.totalCount) p.nodes).1).res.pullRequests.length)
                 else pl)
                (some p.pageInfo.endCursor)
                ((processNodes a limit (setTotal s p.totalCount) p.nodes).1)
                = (some (.ok sF), rest))) := by
  cases hr : r pl cur with
  | error e =>
    rw [fetchLoop_succ_error r limit a fuel pl cur s e hr] at h
    injection h with h1 h2
    injection h1 with h1
    cases h1
  | ok p =>
    refine ⟨p, rfl, ?_⟩
    cases hb : (processNodes a limit (setTotal s p.totalCount) p.nodes).2 with
    | true =>
      rw [fetchLoop_succ_brk r limit a fuel pl cur s p hr hb] at h
      injection h with h1 h2
      injection h1 with h1
      injection h1 with h1
      exact Or.inl ⟨rfl, h1.symm, h2.symm⟩
    | false =>
      cases hn : p.pageInfo.hasNextPage with
      | false =>
        rw [fetchLoop_succ_last r limit a fuel pl cur s p hr hb hn] at h
        injection h with h1 h2
        injection h1 with h1
        injection h1 with h1
        exact Or.inr (Or.inl ⟨rfl, rfl, h1.symm, h2.symm⟩)
      | true =>
        by_cases hl : (((processNodes a limit (setTotal s p.totalCount) p.nodes).1).res.pullRequests.length : Int) = limit
        · rw [fetchLoop_succ_limit r limit a fuel pl cur s p hr hb hn hl] at h
          injection h with h1 h2
          injection h1 with h1
          injection h1 with h1
          exact Or.inr (Or.inr (Or.inl ⟨rfl, rfl, hl, h1.symm, h2.symm⟩))
        · rw [fetchLoop_succ_next r limit a fuel pl cur s p hr hb hn hl] at h
          injection h with h1 h2
          refine Or.inr (Or.inr (Or.inr ⟨rfl, rfl, hl, _, h2.symm, ?_⟩))
          rw [← h1]

theorem fetchLoop_some_ne_nil {ε : Type} (r : Requester ε) (limit : Int)
    (a : Option Bool) (fuel : Nat) (pl : Int) (cur : Option String)
    (s : LoopState) (x : Except ε LoopState) (tr : List PageRequest)
    (h : fetchLoop r limit a fuel pl cur s = (some x, tr)) : tr ≠ [] := by
  match fuel with
  | 0 =>
    rw [fetchLoop] at h
    injection h with h1 h2
    cases h1
  | fuel + 1 =>
    cases hr : r pl cur with
    | error e =>
      rw [fetchLoop_succ_error r limit a fuel pl cur s e hr] at h
      injection h with h1 h2
      rw [← h2]
      simp
    | ok p =>
      cases hb : (processNodes a limit (setTotal s p.totalCount) p.nodes).2 with
      | true =>
        rw [fetchLoop_succ_brk r limit a fuel pl cur s p hr hb] at h
        injection h with h1 h2
        rw [← h2]
        simp
      | false =>
        cases hn : p.pageInfo.hasNextPage with
        | false =>
          rw [fetchLoop_succ_last r limit a fuel pl cur s p hr hb hn] at h
          injection h with h1 h2
          rw [← h2]
          simp
        | true =>
          by_cases hl : (((processNodes a limit (setTotal s p.totalCount) p.nodes).1).res.pullRequests.length : Int) = limit
          · rw [fetchLoop_succ_limit r limit a fuel pl cur s p hr hb hn hl] at h
            injection h with h1 h2
            rw [← h2]
            simp
          · rw [fetchLoop_succ_next r limit a fuel pl cur s p hr hb hn hl] at h
            injection h with h1 h2
            rw [← h2]
            simp

/-- Any predicate preserved by the loop body's three state updates is
preserved by the whole fetch loop. -/
theorem fetchLoop_preserves {ε : Type} (r : Requester ε) (limit : Int)
    (a : Option Bool) (P : LoopState → Prop)
    (hstep : ∀ s pr, P s → P ((processNode a limit s pr).1))
    (htc : ∀ s t, P s → P (setTotal s t))
    (hcl : ∀ s, P s → P (clearUpper s)) :
    ∀ (fuel : Nat) (pl : Int) (cur : Option String) (s sF : LoopState)
      (tr : List PageRequest), P s →
      fetchLoop r limit a fuel pl cur s = (some (.ok sF), tr) → P sF
  | 0, pl, cur, s, sF, tr, hP, h => by
    rw [fetchLoop] at h
    injection h with h1 h2
    cases h1
  | fuel + 1, pl, cur, s, sF, tr, hP, h => by
    rcases fetchLoop_succ_ok_cases r limit a fuel pl cur s sF tr h with
      ⟨p, hr, ⟨hb, hsF, htr⟩ | ⟨hb, hn, hsF, htr⟩ | ⟨hb, hn, hl, hsF, htr⟩ |
        ⟨hb, hn, hl, rest, htr, hrec⟩⟩
    · exact hsF ▸ processNodes_ind a limit P hstep p.nodes _ (htc s p.totalCount hP)
    · exact hsF ▸ hcl _ (processNodes_ind a limit P hstep p.nodes _ (htc s p.totalCount hP))
    · exact hsF ▸ processNodes_ind a limit P hstep p.nodes _ (htc s p.totalCount hP)
    · exact fetchLoop_preserves r limit a P hstep htc hcl fuel _ _ _ sF rest
        (processNodes_ind a limit P hstep p.nodes _ (htc s p.totalCount hP)) hrec

theorem clearUpper_totalCount (s : LoopState) :
    (clearUpper s).res.totalCount = s.res.totalCount := rfl

theorem clearUpper_removed (s : LoopState) :
    (clearUpper s).removed = s.removed := rfl

theorem clearUpper_pullRequests (s : LoopState) :
    (clearUpper s).res.pullRequests = s.res.pullRequests := rfl

theorem getLast_of_single (req₀ req : PageRequest)
    (h : List.getLast? [req₀] = some req) : req = req₀ := by
  simp only [List.getLast?_singleton, Option.some.injEq] at h
  exact h.symm

/-- In a successful run, the final state's `totalCount` is the `totalCount`
reported by the response to the last traced request. -/
theorem fetchLoop_ok_totalCount {ε : Type} (r : Requester ε) (limit : Int)
    (a : Option Bool) :
    ∀ (fuel : Nat) (pl : Int) (cur : Option String) (s sF : LoopState)
      (tr : List PageRequest) (req : PageRequest) (p : ResponsePage),
      fetchLoop r limit a fuel pl cur s = (some (.ok sF), tr) →
      tr.getLast? = some req →
      r req.pageLimit req.endCursor = .ok p →
      sF.res.totalCount = p.totalCount
  | 0, pl, cur, s, sF, tr, req, p, h, hlast, hresp => by
    rw [fetchLoop] at h
    injection h with h1 h2
    cases h1
  | fuel + 1, pl, cur, s, sF, tr, req, p, h, hlast, hresp => by
    rcases fetchLoop_succ_ok_cases r limit a fuel pl cur s sF tr h with
      ⟨p₀, hr, ⟨hb, hsF, htr⟩ | ⟨hb, hn, hsF, htr⟩ | ⟨hb, hn, hl, hsF, htr⟩ |
        ⟨hb, hn, hl, rest, htr, hrec⟩⟩
    · subst htr
      cases getLast_of_single _ _ hlast
      rw [hr] at hresp
      injection hresp with hp
      subst hp
      rw [hsF, processNodes_totalCount]
      rfl
    · subst htr
      cases getLast_of_single _ _ hlast
      rw [hr] at hresp
      injection hresp with hp
      subst hp
      rw [hsF, clearUpper_totalCount, processNodes_totalCount]
      rfl
    · subst htr
      cases getLast_of_single _ _ hlast
      rw [hr] at hresp
      injection hresp with hp
      subst hp
      rw [hsF, processNodes_totalCount]
      rfl
    · subst htr
      cases hrest : rest with
      | nil =>
        subst hrest
        exact absurd rfl (fetchLoop_some_ne_nil r limit a fuel _ _ _ _ _ hrec)
      | cons r1 rs =>
        rw [hrest] at hlast hrec
        rw [List.getLast?_cons_cons] at hlast
        exact fetchLoop_ok_totalCount r limit a fuel _ _ _ sF _ req p hrec hlast hresp

theorem setTotal_flag_removed (s : LoopState) (t : Int)
    (h : s.res.totalCountIsUpperBound = decide (0 < s.removed) ∧ 0 ≤ s.removed) :
    (setTotal s t).res.totalCountIsUpperBound = decide (0 < (setTotal s t).removed)
      ∧ 0 ≤ (setTotal s t).removed := h

/-- Final value of the upper-bound flag when an inclusion predicate is
supplied: it is set exactly when the last fetched page still had further
pages and at least one record was removed.  (In particular the unconditional
reset on line 75 turns it off whenever the last page was the final one.) -/
theorem fetchLoop_some_flag {ε : Type} (r : Requester ε) (limit : Int) (b : Bool) :
    ∀ (fuel : Nat) (pl : Int) (cur : Option String) (s sF : LoopState)
      (tr : List PageRequest) (req : PageRequest) (p : ResponsePage),
      s.res.totalCountIsUpperBound = decide (0 < s.removed) →
      0 ≤ s.removed →
      fetchLoop r limit (some b) fuel pl cur s = (some (.ok sF), tr) →
      tr.getLast? = some req →
      r req.pageLimit req.endCursor = .ok p →
      sF.res.totalCountIsUpperBound
          = (p.pageInfo.hasNextPage && decide (0 < sF.removed))
        ∧ 0 ≤ sF.removed
  | 0, pl, cur, s, sF, tr, req, p, hfl, hrm, h, hlast, hresp => by
    rw [fetchLoop] at h
    injection h with h1 h2
    cases h1
  | fuel + 1, pl, cur, s, sF, tr, req, p, hfl, hrm, h, hlast, hresp => by
    have hstep := processNodes_ind (some b) limit
      (fun s' => s'.res.totalCountIsUpperBound = decide (0 < s'.removed) ∧ 0 ≤ s'.removed)
      (fun s' pr h' => processNode_flag_removed (some b) limit s' pr h')
    rcases fetchLoop_succ_ok_cases r limit (some b) fuel pl cur s sF tr h with
      ⟨p₀, hr, ⟨hb, hsF, htr⟩ | ⟨hb, hn, hsF, htr⟩ | ⟨hb, hn, hl, hsF, htr⟩ |
        ⟨hb, hn, hl, rest, htr, hrec⟩⟩
    · rw [processNodes_some_nobreak] at hb
      cases hb
    · subst htr
      cases getLast_of_single _ _ hlast
      rw [hr] at hresp
      injection hresp with hp
      subst hp
      have h2 := hstep p₀.nodes (setTotal s p₀.totalCount)
        (setTotal_flag_removed s p₀.totalCount ⟨hfl, hrm⟩)
      refine ⟨?_, ?_⟩
      · rw [hsF, hn]
        rfl
      · rw [hsF, clearUpper_removed]
        exact h2.2
    · subst htr
      cases getLast_of_single _ _ hlast
      rw [hr] at hresp
      injection hresp with hp
      subst hp
      have h2 := hstep p₀.nodes (setTotal s p₀.totalCount)
        (setTotal_flag_removed s p₀.totalCount ⟨hfl, hrm⟩)
      rw [hsF, hn]
      exact ⟨by rw [h2.1, Bool.true_and], h2.2⟩
    · have h2 := hstep p₀.nodes (setTotal s p₀.totalCount)
        (setTotal_flag_removed s p₀.totalCount ⟨hfl, hrm⟩)
      subst htr
      cases hrest : rest with
      | nil =>
        subst hrest
        exact absurd rfl (fetchLoop_some_ne_nil r limit (some b) fuel _ _ _ _ _ hrec)
      | cons r1 rs =>
        rw [hrest] at hlast hrec
        rw [List.getLast?_cons_cons] at hlast
        exact fetchLoop_some_flag r limit b fuel _ _ _ sF _ req p h2.1 h2.2
          hrec hlast hresp

theorem processNodes_cons_state (a : Option Bool) (limit : Int) (s s₁ : LoopState)
    (pr : PullRequest) (rest : List PullRequest)
    (he : processNode a limit s pr = (s₁, false)) :
    processNodes a limit s (pr :: rest) = processNodes a limit s₁ rest := by
  rw [processNodes_cons, he]
  rfl

theorem processNodes_cons_brk (a : Option Bool) (limit : Int) (s s₁ : LoopState)
    (pr : PullRequest) (rest : List PullRequest)
    (he : processNode a limit s pr = (s₁, true)) :
    processNodes a limit s (pr :: rest) = (s₁, true) := by
  rw [processNodes_cons, he]
  rfl

/-- Order/first-seen bookkeeping of the inner loop: the records appended to
the output while a page is processed form a sublist of the page, each such
record with a positive number was unseen before and is the first record of
the page bearing its number, the dedup set only grows, and when the page was
processed to its end every record number of the page has been marked. -/
theorem processNodes_stream (a : Option Bool) (limit : Int) :
    ∀ (l : List PullRequest) (s : LoopState),
      ∃ t, ((processNodes a limit s l).1).res.pullRequests
            = s.res.pullRequests ++ t ∧
        t.Sublist l ∧
        (∀ x ∈ t, 0 < x.number → x.number ∉ s.check ∧
          l.find? (fun q => q.number == x.number) = some x) ∧
        s.check ⊆ ((processNodes a limit s l).1).check ∧
        ((processNodes a limit s l).2 = false →
          ∀ q ∈ l, q.number ∈ ((processNodes a limit s l).1).check)
  | [], s => ⟨[], by simp [processNodes], List.nil_sublist [],
      by simp, by simp [processNodes], by simp⟩
  | pr :: rest, s => by
    rcases processNode_cases a limit s pr with ⟨hin, hpos, he⟩ |
      ⟨hskip, hrm, he⟩ | ⟨hskip, hrm, hlt, he⟩ | ⟨hskip, hrm, hge, he⟩
    · -- dedup skip: state unchanged, no break
      rw [processNodes_cons_state a limit s s pr rest he]
      obtain ⟨t, ht1, ht2, ht3, ht4, ht5⟩ := processNodes_stream a limit rest s
      refine ⟨t, ht1, ht2.cons pr, ?_, ht4, ?_⟩
      · intro x hx hxpos
        obtain ⟨hnc, hfind⟩ := ht3 x hx hxpos
        refine ⟨hnc, ?_⟩
        rw [List.find?_cons_of_neg, hfind]
        simp only [beq_iff_eq]
        intro hEq
        exact hnc (hEq ▸ hin)
      · intro hbrk q hq
        rcases List.mem_cons.mp hq with rfl | hq'
        · exact ht4 hin
        · exact ht5 hbrk q hq'
    · -- removed by the inclusion predicate: number marked, no break
      rw [processNodes_cons_state a limit s _ pr rest he]
      obtain ⟨t, ht1, ht2, ht3, ht4, ht5⟩ := processNodes_stream a limit rest _
      refine ⟨t, by simpa using ht1, ht2.cons pr, ?_, ?_, ?_⟩
      · intro x hx hxpos
        obtain ⟨hnc, hfind⟩ := ht3 x hx hxpos
        simp only [List.mem_cons, not_or] at hnc
        refine ⟨hnc.2, ?_⟩
        rw [List.find?_cons_of_neg, hfind]
        simp only [beq_iff_eq]
        exact fun hEq => hnc.1 hEq.symm
      · exact fun y hy => ht4 (List.mem_cons_of_mem _ hy)
      · intro hbrk q hq
        rcases List.mem_cons.mp hq with rfl | hq'
        · exact ht4 (List.mem_cons_self _ _)
        · exact ht5 hbrk q hq'
    · -- appended to the output
      have hnc : 0 < pr.number → pr.number ∉ s.check := fun hp hc => hskip ⟨hc, hp⟩
      cases hβ : (decide (((s.res.pullRequests ++ [pr]).length : Int) = limit)
          && a.isNone) with
      | true =>
        rw [hβ] at he
        rw [processNodes_cons_brk a limit s _ pr rest he]
        refine ⟨[pr], by simp, (List.nil_sublist rest).cons₂ pr, ?_, ?_, by simp⟩
        · intro x hx hxpos
          rcases List.mem_singleton.mp hx with rfl
          exact ⟨hnc hxpos, List.find?_cons_of_pos rest (by simp)⟩
        · exact fun y hy => List.mem_cons_of_mem _ hy
      | false =>
        rw [hβ] at he
        rw [processNodes_cons_state a limit s _ pr rest he]
        obtain ⟨t, ht1, ht2, ht3, ht4, ht5⟩ := processNodes_stream a limit rest _
        refine ⟨pr :: t, ?_, ht2.cons₂ pr, ?_, ?_, ?_⟩
        · rw [ht1]
          simp
        · intro x hx hxpos
          rcases List.mem_cons.mp hx with rfl | hx'
          · exact ⟨hnc hxpos, List.find?_cons_of_pos rest (by simp)⟩
          · obtain ⟨hnc', hfind⟩ := ht3 x hx' hxpos
            simp only [List.mem_cons, not_or] at hnc'
            refine ⟨hnc'.2, ?_⟩
            rw [List.find?_cons_of_neg, hfind]
            simp only [beq_iff_eq]
            exact fun hEq => hnc'.1 hEq.symm
        · exact fun y hy => ht4 (List.mem_cons_of_mem _ hy)
        · intro hbrk q hq
          rcases List.mem_cons.mp hq with rfl | hq'
          · exact ht4 (List.mem_cons_self _ _)
          · exact ht5 hbrk q hq'
    · -- over the limit: number marked, output unchanged
      have hnc : 0 < pr.number → pr.number ∉ s.check := fun hp hc => hskip ⟨hc, hp⟩
      cases hβ : (decide ((s.res.pullRequests.length : Int) = limit)
          && a.isNone) with
      | true =>
        rw [hβ] at he
        rw [processNodes_cons_brk a limit s _ pr rest he]
        exact ⟨[], by simp, List.nil_sublist _, by simp, fun y hy => List.mem_cons_of_mem _ hy, by simp⟩
      | false =>
        rw [hβ] at he
        rw [processNodes_cons_state a limit s _ pr rest he]
        obtain ⟨t, ht1, ht2, ht3, ht4, ht5⟩ := processNodes_stream a limit rest _
        refine ⟨t, by simpa using ht1, ht2.cons pr, ?_, ?_, ?_⟩
        · intro x hx hxpos
          obtain ⟨hnc', hfind⟩ := ht3 x hx hxpos
          simp only [List.mem_cons, not_or] at hnc'
          refine ⟨hnc'.2, ?_⟩
          rw [List.find?_cons_of_neg, hfind]
          simp only [beq_iff_eq]
          exact fun hEq => hnc'.1 hEq.symm
        · exact fun y hy => ht4 (List.mem_cons_of_mem _ hy)
        · intro hbrk q hq
          rcases List.mem_cons.mp hq with rfl | hq'
          · exact ht4 (List.mem_cons_self _ _)
          · exact ht5 hbrk q hq'

theorem fetchedStream_single {ε : Type} (r : Requester ε) (pl : Int)
    (cur : Option String) (n : Nat) (p : ResponsePage) (hr : r pl cur = .ok p) :
    fetchedStream r [⟨pl, cur, n⟩] = p.nodes := by
  simp [fetchedStream, responseNodes, hr]

theorem fetchedStream_cons {ε : Type} (r : Requester ε) (pl : Int)
    (cur : Option String) (n : Nat) (p : ResponsePage) (hr : r pl cur = .ok p)
    (rest : List PageRequest) :
    fetchedStream r (⟨pl, cur, n⟩ :: rest) = p.nodes ++ fetchedStream r rest := by
  simp [fetchedStream, responseNodes, hr]

/-- Loop-level order/first-seen bookkeeping: over a successful run, the
records added to the output form a sublist of the concatenated fetched
stream, and every added record with a positive number was unseen at the
start and is the first stream record bearing its number. -/
theorem fetchLoop_stream {ε : Type} (r : Requester ε) (limit : Int)
    (a : Option Bool) :
    ∀ (fuel : Nat) (pl : Int) (cur : Option String) (s sF : LoopState)
      (tr : List PageRequest),
      fetchLoop r limit a fuel pl cur s = (some (.ok sF), tr) →
      ∃ t, sF.res.pullRequests = s.res.pullRequests ++ t ∧
        t.Sublist (fetchedStream r tr) ∧
        ∀ x ∈ t, 0 < x.number → x.number ∉ s.check ∧
          (fetchedStream r tr).find? (fun q => q.number == x.number) = some x
  | 0, pl, cur, s, sF, tr, h => by
    rw [fetchLoop] at h
    injection h with h1 h2
    cases h1
  | fuel + 1, pl, cur, s, sF, tr, h => by
    rcases fetchLoop_succ_ok_cases r limit a fuel pl cur s sF tr h with
      ⟨p, hr, ⟨hb, hsF, htr⟩ | ⟨hb, hn, hsF, htr⟩ | ⟨hb, hn, hl, hsF, htr⟩ |
        ⟨hb, hn, hl, rest, htr, hrec⟩⟩
    · subst htr hsF
      obtain ⟨t, ht1, ht2, ht3, ht4, ht5⟩ :=
        processNodes_stream a limit p.nodes (setTotal s p.totalCount)
      rw [fetchedStream_single r pl cur _ p hr]
      exact ⟨t, ht1, ht2, ht3⟩
    · subst htr hsF
      obtain ⟨t, ht1, ht2, ht3, ht4, ht5⟩ :=
        processNodes_stream a limit p.nodes (setTotal s p.totalCount)
      rw [fetchedStream_single r pl cur _ p hr]
      exact ⟨t, by rw [clearUpper_pullRequests]; exact ht1, ht2, ht3⟩
    · subst htr hsF
      obtain ⟨t, ht1, ht2, ht3, ht4, ht5⟩ :=
        processNodes_stream a limit p.nodes (setTotal s p.totalCount)
      rw [fetchedStream_single r pl cur _ p hr]
      exact ⟨t, ht1, ht2, ht3⟩
    · subst htr
      obtain ⟨t₁, ht1, ht2, ht3, ht4, ht5⟩ :=
        processNodes_stream a limit p.nodes (setTotal s p.totalCount)
      obtain ⟨t₂, iht1, iht2, iht3⟩ :=
        fetchLoop_stream r limit a fuel _ _ _ sF rest hrec
      have hall := ht5 hb
      rw [fetchedStream_cons r pl cur _ p hr rest]
      refine ⟨t₁ ++ t₂, ?_, ht2.append iht2, ?_⟩
      · rw [iht1, ht1]
        simp [setTotal]
      · intro x hx hxpos
        rcases List.mem_append.mp hx with hx1 | hx2
        · obtain ⟨hnc, hfind⟩ := ht3 x hx1 hxpos
          refine ⟨hnc, ?_⟩
          rw [List.find?_append, hfind]
          rfl
        · obtain ⟨hnc, hfind⟩ := iht3 x hx2 hxpos
          have hncs : x.number ∉ s.check := fun hc => hnc (ht4 hc)
          refine ⟨hncs, ?_⟩
          have hnone : p.nodes.find? (fun q => q.number == x.number) = none := by
            rw [List.find?_eq_none]
            intro q hq
            simp only [beq_iff_eq]
            intro hEq
            exact hnc (hEq ▸ hall q hq)
          rw [List.find?_append, hnone, hfind]
          rfl

theorem goMin_le_left (a b : Int) : goMin a b ≤ a := by
  unfold goMin
  split <;> omega

theorem goMin_le_right (a b : Int) : goMin a b ≤ b := by
  unfold goMin
  split <;> omega

/-- If any traced request evaluates to an error, the run's outcome is exactly
that error (the loop aborts on the first failing request). -/
theorem fetchLoop_error {ε : Type} (r : Requester ε) (limit : Int)
    (a : Option Bool) :
    ∀ (fuel : Nat) (pl : Int) (cur : Option String) (s : LoopState)
      (out : Option (Except ε LoopState)) (tr : List PageRequest) (k : Nat)
      (hk : k < tr.length) (e : ε),
      fetchLoop r limit a fuel pl cur s = (out, tr) →
      r (tr.get ⟨k, hk⟩).pageLimit (tr.get ⟨k, hk⟩).endCursor = .error e →
      out = some (.error e)
  | 0, pl, cur, s, out, tr, k, hk, e, h, hresp => by
    rw [fetchLoop] at h
    injection h with h1 h2
    subst h2
    exact absurd hk (by simp)
  | fuel + 1, pl, cur, s, out, tr, k, hk, e, h, hresp => by
    cases hr : r pl cur with
    | error e' =>
      rw [fetchLoop_succ_error r limit a fuel pl cur s e' hr] at h
      injection h with h1 h2
      subst h2
      match k with
      | 0 =>
        have h3 : r pl cur = Except.error e := hresp
        rw [hr] at h3
        injection h3 with h3
        rw [← h1, h3]
      | k + 1 => exact absurd hk (by simp)
    | ok p =>
      cases hb : (processNodes a limit (setTotal s p.totalCount) p.nodes).2 with
      | true =>
        rw [fetchLoop_succ_brk r limit a fuel pl cur s p hr hb] at h
        injection h with h1 h2
        subst h2
        match k with
        | 0 =>
          have h3 : r pl cur = Except.error e := hresp
          rw [hr] at h3
          cases h3
        | k + 1 => exact absurd hk (by simp)
      | false =>
        cases hn : p.pageInfo.hasNextPage with
        | false =>
          rw [fetchLoop_succ_last r limit a fuel pl cur s p hr hb hn] at h
          injection h with h1 h2
          subst h2
          match k with
          | 0 =>
            have h3 : r pl cur = Except.error e := hresp
            rw [hr] at h3
            cases h3
          | k + 1 => exact absurd hk (by simp)
        | true =>
          by_cases hl : (((processNodes a limit (setTotal s p.totalCount) p.nodes).1).res.pullRequests.length : Int) = limit
          · rw [fetchLoop_succ_limit r limit a fuel pl cur s p hr hb hn hl] at h
            injection h with h1 h2
            subst h2
            match k with
            | 0 =>
              have h3 : r pl cur = Except.error e := hresp
              rw [hr] at h3
              cases h3
            | k + 1 => exact absurd hk (by simp)
          · rw [fetchLoop_succ_next r limit a fuel pl cur s p hr hb hn hl] at h
            injection h with h1 h2
            subst h2
            match k with
            | 0 =>
              have h3 : r pl cur = Except.error e := hresp
              rw [hr] at h3
              cases h3
            | k + 1 =>
              have hk' : k < ((fetchLoop r limit a fuel
                  (if a.isNone then
                    goMin pl (limit -
                      ((processNodes a limit (setTotal s p.totalCount) p.nodes).1).res.pullRequests.length)
                   else pl)
                  (some p.pageInfo.endCursor)
                  ((processNodes a limit (setTotal s p.totalCount) p.nodes).1)).2).length := by
                simpa using hk
              exact fetchLoop_error r limit a fuel _ _ _ out _ k hk' e
                (by rw [← h1]) hresp

/-- Trace shape when no inclusion predicate is supplied: the first request
uses the current page size, and along the trace every later request's size is
at most the previous one and at most the limit minus the output length held
when the request was issued. -/
theorem fetchLoop_trace_none {ε : Type} (r : Requester ε) (limit : Int) :
    ∀ (fuel : Nat) (pl : Int) (cur : Option String) (s : LoopState)
      (out : Option (Except ε LoopState)) (tr : List PageRequest),
      fetchLoop r limit none fuel pl cur s = (out, tr) →
      (∀ req, tr.head? = some req →
        req.pageLimit = pl ∧ req.outLen = s.res.pullRequests.length) ∧
      List.Chain'
        (fun x y => y.pageLimit ≤ x.pageLimit ∧
          y.pageLimit ≤ limit - (y.outLen : Int)) tr
  | 0, pl, cur, s, out, tr, h => by
    rw [fetchLoop] at h
    injection h with h1 h2
    subst h2
    exact ⟨fun req hreq => absurd hreq (by simp), List.chain'_nil⟩
  | fuel + 1, pl, cur, s, out, tr, h => by
    have hsingle : ∀ req₀ : PageRequest, tr = [req₀] →
        (∀ req, tr.head? = some req →
          req.pageLimit = req₀.pageLimit ∧ req.outLen = req₀.outLen) ∧
        List.Chain'
          (fun x y => y.pageLimit ≤ x.pageLimit ∧
            y.pageLimit ≤ limit - (y.outLen : Int)) tr := by
      intro req₀ htr
      subst htr
      refine ⟨fun req hreq => ?_, List.chain'_singleton req₀⟩
      injection hreq with hreq
      exact hreq ▸ ⟨rfl, rfl⟩
    cases hr : r pl cur with
    | error e' =>
      rw [fetchLoop_succ_error r limit none fuel pl cur s e' hr] at h
      injection h with h1 h2
      exact hsingle _ h2.symm
    | ok p =>
      cases hb : (processNodes none limit (setTotal s p.totalCount) p.nodes).2 with
      | true =>
        rw [fetchLoop_succ_brk r limit none fuel pl cur s p hr hb] at h
        injection h with h1 h2
        exact hsingle _ h2.symm
      | false =>
        cases hn : p.pageInfo.hasNextPage with
        | false =>
          rw [fetchLoop_succ_last r limit none fuel pl cur s p hr hb hn] at h
          injection h with h1 h2
          exact hsingle _ h2.symm
        | true =>
          by_cases hl : (((processNodes none limit (setTotal s p.totalCount) p.nodes).1).res.pullRequests.length : Int) = limit
          · rw [fetchLoop_succ_limit r limit none fuel pl cur s p hr hb hn hl] at h
            injection h with h1 h2
            exact hsingle _ h2.symm
          · rw [fetchLoop_succ_next r limit none fuel pl cur s p hr hb hn hl] at h
            injection h with h1 h2
            subst h2
            obtain ⟨ihhead, ihchain⟩ := fetchLoop_trace_none r limit fuel
              (goMin pl (limit -
                ((processNodes none limit (setTotal s p.totalCount) p.nodes).1).res.pullRequests.length))
              (some p.pageInfo.endCursor)
              ((processNodes none limit (setTotal s p.totalCount) p.nodes).1)
              ((fetchLoop r limit none fuel
                (if (none : Option Bool).isNone then
                  goMin pl (limit -
                    ((processNodes none limit (setTotal s p.totalCount) p.nodes).1).res.pullRequests.length)
                 else pl)
                (some p.pageInfo.endCursor)
                ((processNodes none limit (setTotal s p.totalCount) p.nodes).1)).1)
              ((fetchLoop r limit none fuel
                (if (none : Option Bool).isNone then
                  goMin pl (limit -
                    ((processNodes none limit (setTotal s p.totalCount) p.nodes).1).res.pullRequests.length)
                 else pl)
                (some p.pageInfo.endCursor)
                ((processNodes none limit (setTotal s p.totalCount) p.nodes).1)).2)
              (by rfl)
            refine ⟨fun req hreq => ?_, ?_⟩
            · injection hreq with hreq
              exact hreq ▸ ⟨rfl, rfl⟩
            · cases hrest : ((fetchLoop r limit none fuel
                  (if (none : Option Bool).isNone then
                    goMin pl (limit -
                      ((processNodes none limit (setTotal s p.totalCount) p.nodes).1).res.pullRequests.length)
                   else pl)
                  (some p.pageInfo.endCursor)
                  ((processNodes none limit (setTotal s p.totalCount) p.nodes).1)).2) with
              | nil => exact List.chain'_singleton _
              | cons r1 rs =>
                rw [hrest] at ihhead ihchain
                refine List.chain'_cons.mpr ⟨?_, ihchain⟩
                obtain ⟨hpl, hlen⟩ := ihhead r1 rfl
                constructor
                · rw [hpl]
                  exact goMin_le_left _ _
                · rw [hpl, hlen]
                  exact goMin_le_right _ _

/-- Trace shape when an inclusion predicate is supplied: every request is
issued with the same page size the loop started with (never shrunk). -/
theorem fetchLoop_trace_some {ε : Type} (r : Requester ε) (limit : Int)
    (b : Bool) :
    ∀ (fuel : Nat) (pl : Int) (cur : Option String) (s : LoopState)
      (out : Option (Except ε LoopState)) (tr : List PageRequest),
      fetchLoop r limit (some b) fuel pl cur s = (out, tr) →
      ∀ req ∈ tr, req.pageLimit = pl
  | 0, pl, cur, s, out, tr, h => by
    rw [fetchLoop] at h
    injection h with h1 h2
    subst h2
    exact fun req hreq => absurd hreq (by simp)
  | fuel + 1, pl, cur, s, out, tr, h => by
    cases hr : r pl cur with
    | error e' =>
      rw [fetchLoop_succ_error r limit (some b) fuel pl cur s e' hr] at h
      injection h with h1 h2
      subst h2
      intro req hreq
      rcases List.mem_singleton.mp hreq with rfl
      rfl
    | ok p =>
      cases hb : (processNodes (some b) limit (setTotal s p.totalCount) p.nodes).2 with
      | true =>
        rw [processNodes_some_nobreak] at hb
        cases hb
      | false =>
        cases hn : p.pageInfo.hasNextPage with
        | false =>
          rw [fetchLoop_succ_last r limit (some b) fuel pl cur s p hr hb hn] at h
          injection h with h1 h2
          subst h2
          intro req hreq
          rcases List.mem_singleton.mp hreq with rfl
          rfl
        | true =>
          by_cases hl : (((processNodes (some b) limit (setTotal s p.totalCount) p.nodes).1).res.pullRequests.length : Int) = limit
          · rw [fetchLoop_succ_limit r limit (some b) fuel pl cur s p hr hb hn hl] at h
            injection h with h1 h2
            subst h2
            intro req hreq
            rcases List.mem_singleton.mp hreq with rfl
            rfl
          · rw [fetchLoop_succ_next r limit (some b) fuel pl cur s p hr hb hn hl] at h
            injection h with h1 h2
            subst h2
            intro req hreq
            rcases List.mem_cons.mp hreq with rfl | hreq'
            · rfl
            · exact fetchLoop_trace_some r limit b fuel pl
                (some p.pageInfo.endCursor)
                ((processNodes (some b) limit (setTotal s p.totalCount) p.nodes).1)
                _ _ (by rfl) req hreq'

/-- The inner-loop body preserves the dedup invariant: every output record
with a positive number has its number marked, and no two output records share
a positive number. -/
theorem processNode_dedup_inv (a : Option Bool) (limit : Int) (s : LoopState)
    (pr : PullRequest)
    (h : (∀ q ∈ s.res.pullRequests, 0 < q.number → q.number ∈ s.check) ∧
      s.res.pullRequests.Pairwise (fun x y => 0 < x.number → x.number ≠ y.number)) :
    (∀ q ∈ ((processNode a limit s pr).1).res.pullRequests, 0 < q.number →
        q.number ∈ ((processNode a limit s pr).1).check) ∧
      ((processNode a limit s pr).1).res.pullRequests.Pairwise
        (fun x y => 0 < x.number → x.number ≠ y.number) := by
  rcases processNode_cases a limit s pr with ⟨hin, hpos, he⟩ | ⟨hskip, hrm, he⟩ |
    ⟨hskip, hrm, hlt, he⟩ | ⟨hskip, hrm, hge, he⟩ <;> rw [he]
  · exact h
  · exact ⟨fun q hq hqpos => List.mem_cons_of_mem _ (h.1 q hq hqpos), h.2⟩
  · constructor
    · intro q hq hqpos
      rcases List.mem_append.mp hq with hq' | hq'
      · exact List.mem_cons_of_mem _ (h.1 q hq' hqpos)
      · rcases List.mem_singleton.mp hq' with rfl
        exact List.mem_cons_self _ _
    · refine List.pairwise_append.mpr ⟨h.2, List.pairwise_singleton _ _, ?_⟩
      intro x hx y hy hxpos
      rcases List.mem_singleton.mp hy with rfl
      intro hEq
      exact hskip ⟨hEq ▸ h.1 x hx hxpos, hEq ▸ hxpos⟩
  · exact ⟨fun q hq hqpos => List.mem_cons_of_mem _ (h.1 q hq hqpos), h.2⟩

/-- A successful `fetchPullRequests` outcome comes from a successful loop run
whose final state it finalizes. -/
theorem fetch_unpack {ε : Type} (r : Requester ε) (limit : Int)
    (a : Option Bool) (fuel : Nat) (res : PullRequestAndTotalCount)
    (tr : List PageRequest)
    (h : fetchPullRequests r limit a fuel = (some (.ok res), tr)) :
    ∃ sF, fetchLoop r limit a fuel (initialPageLimit limit a) none initialState
        = (some (.ok sF), tr) ∧ res = finalizeResult sF := by
  unfold fetchPullRequests at h
  injection h with h1 h2
  cases hout : (fetchLoop r limit a fuel (initialPageLimit limit a) none
      initialState).1 with
  | none =>
    rw [hout] at h1
    cases h1
  | some x =>
    rw [hout] at h1
    cases x with
    | error e =>
      simp only [Option.map_some'] at h1
      injection h1 with h1
      cases h1
    | ok sF =>
      simp only [Option.map_some'] at h1
      injection h1 with h1
      refine ⟨sF, ?_, ?_⟩
      · rw [← hout, ← h2]
      · have h1' : Except.ok (finalizeResult sF) = Except.ok res := h1
        injection h1' with h1'
        exact h1'.symm

theorem finalizeResult_totalCount (s : LoopState) :
    (finalizeResult s).totalCount = s.res.totalCount - s.removed := rfl

theorem finalizeResult_flag (s : LoopState) :
    (finalizeResult s).totalCountIsUpperBound = s.res.totalCountIsUpperBound := rfl

theorem finalizeResult_pullRequests (s : LoopState) :
    (finalizeResult s).pullRequests = s.res.pullRequests := rfl

/-! ### Claim C1 -/

/-- C1, counterexample: with the inclusion predicate `some true` and a single
page whose only record is removed by the predicate, the final loop state
shows `removed = 1` (a record was removed), yet because that last fetched
page reported has-more = false, the returned `TotalCountIsUpperBound` is
`false` — the claim demands it remain `true`.  Line 75 resets the flag
unconditionally, not only when it was not forced true by filtering. -/
theorem fetch_upper_bound_cex :
    fetchLoop (fun _ _ => (Except.ok
        ⟨[⟨1, none, 0⟩], ⟨false, ""⟩, 1⟩ : Except Nat ResponsePage)) 30
        (some true) 1 100 none initialState
      = (some (.ok ⟨⟨1, [], false, false⟩, [1], 1⟩), [⟨100, none, 0⟩])
    ∧ (fetchPullRequests (fun _ _ => (Except.ok
        ⟨[⟨1, none, 0⟩], ⟨false, ""⟩, 1⟩ : Except Nat ResponsePage)) 30
        (some true) 1).1
      = some (.ok ⟨0, [], false, false⟩) := by
  exact ⟨rfl, rfl⟩

/-- C1, amended: when an inclusion predicate is supplied, the returned
upper-bound flag is `true` exactly when the last fetched page still reported
further pages AND at least one record was removed (observable as the returned
total being smaller than that page's reported total).  In particular, once a
record is removed the flag stays true for the remainder of the invocation
unless the loop reaches a page with has-more = false, where line 75
unconditionally finalizes it to false. -/
theorem fetch_upper_bound_amended {ε : Type} (r : Requester ε) (limit : Int)
    (b : Bool) (fuel : Nat) (res : PullRequestAndTotalCount)
    (tr : List PageRequest) (req : PageRequest) (p : ResponsePage)
    (h : fetchPullRequests r limit (some b) fuel = (some (.ok res), tr))
    (hlast : tr.getLast? = some req)
    (hresp : r req.pageLimit req.endCursor = .ok p) :
    res.totalCountIsUpperBound
      = (p.pageInfo.hasNextPage && decide (res.totalCount < p.totalCount)) := by
  obtain ⟨sF, hloop, hres⟩ := fetch_unpack r limit (some b) fuel res tr h
  obtain ⟨hflag, hrm⟩ := fetchLoop_some_flag r limit b fuel
    (initialPageLimit limit (some b)) none initialState sF tr req p
    (by decide) (by decide) hloop hlast hresp
  have htc := fetchLoop_ok_totalCount r limit (some b) fuel
    (initialPageLimit limit (some b)) none initialState sF tr req p
    hloop hlast hresp
  subst hres
  rw [finalizeResult_flag, finalizeResult_totalCount, hflag, htc]
  have hdec : decide (0 < sF.removed)
      = decide (p.totalCount - sF.removed < p.totalCount) :=
    decide_eq_decide.mpr (by omega)
  rw [hdec]

/-- C1, witness for the amended theorem: limit 1, predicate `some true`, one
page with a removed record and a kept one, has-more = true: the flag comes
back true, and 4 < 5 witnesses the removal. -/
theorem fetch_upper_bound_amended_witness :
    (fetchPullRequests (fun _ _ => (Except.ok
        ⟨[⟨1, none, 0⟩, ⟨2, some (), 1⟩], ⟨true, "c"⟩, 5⟩ :
          Except Nat ResponsePage)) 1 (some true) 1
      = (some (.ok ⟨4, [⟨2, some (), 1⟩], true, false⟩), [⟨100, none, 0⟩]))
    ∧ ([(⟨100, none, 0⟩ : PageRequest)].getLast? = some ⟨100, none, 0⟩)
    ∧ ((true : Bool) = (true && decide ((4 : Int) < 5))) :=
  ⟨rfl, rfl,
    fetch_upper_bound_amended
      (fun _ _ => (Except.ok
        ⟨[⟨1, none, 0⟩, ⟨2, some (), 1⟩], ⟨true, "c"⟩, 5⟩ :
          Except Nat ResponsePage)) 1 true 1
      ⟨4, [⟨2, some (), 1⟩], true, false⟩ [⟨100, none, 0⟩] ⟨100, none, 0⟩
      ⟨[⟨1, none, 0⟩, ⟨2, some (), 1⟩], ⟨true, "c"⟩, 5⟩
      rfl rfl rfl⟩

/-! ### Claim C2 -/

/-- C2: with no inclusion predicate, a run that terminates without error
returns `totalCountIsUpperBound = false`, and its total count equals the
total count reported by the last fetched page (the removed counter stays 0,
so the final subtraction is a no-op). -/
theorem fetch_exact_count {ε : Type} (r : Requester ε) (limit : Int)
    (fuel : Nat) (res : PullRequestAndTotalCount) (tr : List PageRequest)
    (h : fetchPullRequests r limit none fuel = (some (.ok res), tr)) :
    res.totalCountIsUpperBound = false ∧
    ∀ req p, tr.getLast? = some req → r req.pageLimit req.endCursor = .ok p →
      res.totalCount = p.totalCount := by
  obtain ⟨sF, hloop, hres⟩ := fetch_unpack r limit none fuel res tr h
  have hP := fetchLoop_preserves r limit none
    (fun s => s.res.totalCountIsUpperBound = false ∧ s.removed = 0)
    (fun s pr hp =>
      ⟨by rw [(processNode_none_flag limit s pr).1]; exact hp.1,
       by rw [(processNode_none_flag limit s pr).2]; exact hp.2⟩)
    (fun s t hp => hp)
    (fun s hp => ⟨rfl, hp.2⟩)
    fuel (initialPageLimit limit none) none initialState sF tr ⟨rfl, rfl⟩ hloop
  subst hres
  refine ⟨by rw [finalizeResult_flag]; exact hP.1, ?_⟩
  intro req p hlast hresp
  have htc := fetchLoop_ok_totalCount r limit none fuel
    (initialPageLimit limit none) none initialState sF tr req p hloop hlast hresp
  rw [finalizeResult_totalCount, htc, hP.2]
  omega

/-- C2, witness: two unique records on a single exhausted page, limit 5:
the flag is false and the count equals the page's reported total 7. -/
theorem fetch_exact_count_witness :
    (fetchPullRequests (fun _ _ => (Except.ok
        ⟨[⟨1, none, 0⟩, ⟨2, none, 1⟩], ⟨false, ""⟩, 7⟩ :
          Except Nat ResponsePage)) 5 none 1
      = (some (.ok ⟨7, [⟨1, none, 0⟩, ⟨2, none, 1⟩], false, false⟩),
          [⟨5, none, 0⟩]))
    ∧ ((false : Bool) = false)
    ∧ ((7 : Int) = 7) :=
  ⟨rfl,
    (fetch_exact_count
      (fun _ _ => (Except.ok
        ⟨[⟨1, none, 0⟩, ⟨2, none, 1⟩], ⟨false, ""⟩, 7⟩ :
          Except Nat ResponsePage)) 5 1
      ⟨7, [⟨1, none, 0⟩, ⟨2, none, 1⟩], false, false⟩ [⟨5, none, 0⟩] rfl).1,
    (fetch_exact_count
      (fun _ _ => (Except.ok
        ⟨[⟨1, none, 0⟩, ⟨2, none, 1⟩], ⟨false, ""⟩, 7⟩ :
          Except Nat ResponsePage)) 5 1
      ⟨7, [⟨1, none, 0⟩, ⟨2, none, 1⟩], false, false⟩ [⟨5, none, 0⟩] rfl).2
      ⟨5, none, 0⟩ ⟨[⟨1, none, 0⟩, ⟨2, none, 1⟩], ⟨false, ""⟩, 7⟩ rfl rfl⟩

/-! ### Claim C3 -/

/-- C3: the returned total count equals the total count reported by the last
fetched page minus the number of records the inclusion predicate removed (the
loop state's `removed` counter); a record skipped by deduplication leaves the
whole loop state — in particular that counter — unchanged, so such skips are
never subtracted. -/
theorem fetch_total_count {ε : Type} (r : Requester ε) (limit : Int)
    (a : Option Bool) (fuel : Nat) (tr : List PageRequest) (req : PageRequest)
    (p : ResponsePage) (sF : LoopState)
    (hloop : fetchLoop r limit a fuel (initialPageLimit limit a) none
      initialState = (some (.ok sF), tr))
    (hlast : tr.getLast? = some req)
    (hresp : r req.pageLimit req.endCursor = .ok p) :
    (fetchPullRequests r limit a fuel).1 = some (.ok (finalizeResult sF)) ∧
    (finalizeResult sF).totalCount = p.totalCount - sF.removed ∧
    ∀ (s : LoopState) (q : PullRequest), q.number ∈ s.check → 0 < q.number →
      processNode a limit s q = (s, false) := by
  have htc := fetchLoop_ok_totalCount r limit a fuel
    (initialPageLimit limit a) none initialState sF tr req p hloop hlast hresp
  refine ⟨?_, ?_, fun s q h1 h2 => processNode_skip a limit s q h1 h2⟩
  · have h1 : (fetchLoop r limit a fuel (initialPageLimit limit a) none
        initialState).1 = some (Except.ok sF) := by rw [hloop]
    show ((fetchLoop r limit a fuel (initialPageLimit limit a) none
        initialState).1.map (fun x => x.map finalizeResult))
      = some (.ok (finalizeResult sF))
    rw [h1]
    rfl
  · rw [finalizeResult_totalCount, htc]

/-- C3, witness: a removed record on page one, a deduplicated record on page
two: returned total is 9 − 1; the skipped duplicate is not subtracted. -/
theorem fetch_total_count_witness :
    (fetchLoop (fun _ c => (match c with
        | none => Except.ok ⟨[⟨1, none, 10⟩, ⟨2, some (), 20⟩], ⟨true, "c1"⟩, 9⟩
        | some _ => Except.ok ⟨[⟨2, some (), 99⟩, ⟨3, some (), 30⟩], ⟨false, ""⟩, 9⟩ :
          Except Nat ResponsePage)) 10 (some true) 2
        (initialPageLimit 10 (some true)) none initialState
      = (some (.ok ⟨⟨9, [⟨2, some (), 20⟩, ⟨3, some (), 30⟩], false, false⟩,
          [3, 2, 1], 1⟩),
        [⟨100, none, 0⟩, ⟨100, some "c1", 1⟩]))
    ∧ ((fetchPullRequests (fun _ c => (match c with
        | none => Except.ok ⟨[⟨1, none, 10⟩, ⟨2, some (), 20⟩], ⟨true, "c1"⟩, 9⟩
        | some _ => Except.ok ⟨[⟨2, some (), 99⟩, ⟨3, some (), 30⟩], ⟨false, ""⟩, 9⟩ :
          Except Nat ResponsePage)) 10 (some true) 2).1
      = some (.ok ⟨8, [⟨2, some (), 20⟩, ⟨3, some (), 30⟩], false, false⟩))
    ∧ ((8 : Int) = 9 - 1) :=
  ⟨rfl,
    (fetch_total_count (fun _ c => (match c with
        | none => Except.ok ⟨[⟨1, none, 10⟩, ⟨2, some (), 20⟩], ⟨true, "c1"⟩, 9⟩
        | some _ => Except.ok ⟨[⟨2, some (), 99⟩, ⟨3, some (), 30⟩], ⟨false, ""⟩, 9⟩ :
          Except Nat ResponsePage)) 10 (some true) 2
      [⟨100, none, 0⟩, ⟨100, some "c1", 1⟩] ⟨100, some "c1", 1⟩
      ⟨[⟨2, some (), 99⟩, ⟨3, some (), 30⟩], ⟨false, ""⟩, 9⟩
      ⟨⟨9, [⟨2, some (), 20⟩, ⟨3, some (), 30⟩], false, false⟩, [3, 2, 1], 1⟩
      rfl rfl rfl).1,
    (fetch_total_count (fun _ c => (match c with
        | none => Except.ok ⟨[⟨1, none, 10⟩, ⟨2, some (), 20⟩], ⟨true, "c1"⟩, 9⟩
        | some _ => Except.ok ⟨[⟨2, some (), 99⟩, ⟨3, some (), 30⟩], ⟨false, ""⟩, 9⟩ :
          Except Nat ResponsePage)) 10 (some true) 2
      [⟨100, none, 0⟩, ⟨100, some "c1", 1⟩] ⟨100, some "c1", 1⟩
      ⟨[⟨2, some (), 99⟩, ⟨3, some (), 30⟩], ⟨false, ""⟩, 9⟩
      ⟨⟨9, [⟨2, some (), 20⟩, ⟨3, some (), 30⟩], false, false⟩, [3, 2, 1], 1⟩
      rfl rfl rfl).2.1⟩

/-! ### Claim C4 -/

/-- C4: for every limit L ≥ 0, inclusion predicate and requester, the list of
records returned by a successful run has length at most L. -/
theorem fetch_limit_invariant {ε : Type} (r : Requester ε) (limit : Int)
    (a : Option Bool) (fuel : Nat) (res : PullRequestAndTotalCount)
    (tr : List PageRequest) (hlim : 0 ≤ limit)
    (h : fetchPullRequests r limit a fuel = (some (.ok res), tr)) :
    (res.pullRequests.length : Int) ≤ limit := by
  obtain ⟨sF, hloop, hres⟩ := fetch_unpack r limit a fuel res tr h
  have hP := fetchLoop_preserves r limit a
    (fun s => (s.res.pullRequests.length : Int) ≤ limit)
    (fun s pr hp => processNode_len_le a limit s pr hp)
    (fun s t hp => hp) (fun s hp => hp)
    fuel (initialPageLimit limit a) none initialState sF tr
    (by simpa [initialState] using hlim) hloop
  subst hres
  rw [finalizeResult_pullRequests]
  exact hP

/-- C4, witness: limit 1 against a page holding two records: exactly one
record is returned. -/
theorem fetch_limit_invariant_witness :
    ((0 : Int) ≤ 1)
    ∧ (fetchPullRequests (fun _ _ => (Except.ok
        ⟨[⟨1, none, 0⟩, ⟨2, none, 1⟩], ⟨false, ""⟩, 7⟩ :
          Except Nat ResponsePage)) 1 none 1
      = (some (.ok ⟨7, [⟨1, none, 0⟩], false, false⟩), [⟨1, none, 0⟩]))
    ∧ ((([(⟨1, none, 0⟩ : PullRequest)]).length : Int) ≤ 1) :=
  ⟨by decide, rfl,
    fetch_limit_invariant (fun _ _ => (Except.ok
        ⟨[⟨1, none, 0⟩, ⟨2, none, 1⟩], ⟨false, ""⟩, 7⟩ :
          Except Nat ResponsePage)) 1 none 1
      ⟨7, [⟨1, none, 0⟩], false, false⟩ [⟨1, none, 0⟩] (by decide) rfl⟩

/-! ### Claim C5 -/

/-- C5, counterexample: the guard on line 50 is `pr.Number > 0`, not
`pr.Number != 0`, so two records sharing the non-zero (hence non-unset)
identity key −1 are never deduplicated and both appear in the output,
refuting the claim that no two records with the same non-unset key both
appear. -/
theorem fetch_dedup_cex :
    ((fetchPullRequests (fun _ _ => (Except.ok
        ⟨[⟨-1, none, 0⟩, ⟨-1, none, 1⟩], ⟨false, ""⟩, 2⟩ :
          Except Nat ResponsePage)) 10 none 1).1
      = some (.ok ⟨2, [⟨-1, none, 0⟩, ⟨-1, none, 1⟩], false, false⟩))
    ∧ ((-1 : Int) ≠ 0) :=
  ⟨rfl, by decide⟩

/-- C5, amended: no two output records share the same positive identity key
(a later occurrence of an already-seen positive key is skipped without
affecting any state, per the skip conjunct of C3's theorem), while records
with a non-positive identity key — including the zero/unset value — are never
deduplicated: whenever such a record survives the predicate and the output is
below the limit it is appended, even if its key was seen before. -/
theorem fetch_dedup_amended {ε : Type} (r : Requester ε) (limit : Int)
    (a : Option Bool) (fuel : Nat) (res : PullRequestAndTotalCount)
    (tr : List PageRequest)
    (h : fetchPullRequests r limit a fuel = (some (.ok res), tr)) :
    res.pullRequests.Pairwise (fun x y => 0 < x.number → x.number ≠ y.number) ∧
    ∀ (s : LoopState) (q : PullRequest), q.number ≤ 0 →
      removesRecord a q = false → (s.res.pullRequests.length : Int) < limit →
      ((processNode a limit s q).1).res.pullRequests
        = s.res.pullRequests ++ [q] := by
  constructor
  · obtain ⟨sF, hloop, hres⟩ := fetch_unpack r limit a fuel res tr h
    have hP := fetchLoop_preserves r limit a
      (fun s => (∀ q ∈ s.res.pullRequests, 0 < q.number → q.number ∈ s.check) ∧
        s.res.pullRequests.Pairwise
          (fun (x y : PullRequest) => 0 < x.number → x.number ≠ y.number))
      (fun s pr hp => processNode_dedup_inv a limit s pr hp)
      (fun s t hp => hp) (fun s hp => hp)
      fuel (initialPageLimit limit a) none initialState sF tr
      ⟨fun q hq => absurd hq (by simp [initialState]), by simp [initialState]⟩
      hloop
    subst hres
    rw [finalizeResult_pullRequests]
    exact hP.2
  · intro s q hq0 hrm hlt
    rcases processNode_cases a limit s q with ⟨hin, hpos, he⟩ |
      ⟨hskip, hrm', he⟩ | ⟨hskip, hrm', hlt', he⟩ | ⟨hskip, hrm', hge', he⟩
    · omega
    · rw [hrm] at hrm'
      cases hrm'
    · rw [he]
    · exact absurd hlt hge'

/-- C5, witness: two records with the unset key 0 and one with key 5 — the
0-keyed records are not deduplicated against each other and all three appear;
the pairwise property holds on the output. -/
theorem fetch_dedup_amended_witness :
    (fetchPullRequests (fun _ _ => (Except.ok
        ⟨[⟨0, none, 1⟩, ⟨0, none, 2⟩, ⟨5, none, 3⟩], ⟨false, ""⟩, 3⟩ :
          Except Nat ResponsePage)) 10 none 1
      = (some (.ok ⟨3, [⟨0, none, 1⟩, ⟨0, none, 2⟩, ⟨5, none, 3⟩], false, false⟩),
          [⟨10, none, 0⟩]))
    ∧ (([⟨0, none, 1⟩, ⟨0, none, 2⟩, ⟨5, none, 3⟩] : List PullRequest).Pairwise
        (fun x y => 0 < x.number → x.number ≠ y.number)) :=
  ⟨rfl,
    (fetch_dedup_amended (fun _ _ => (Except.ok
        ⟨[⟨0, none, 1⟩, ⟨0, none, 2⟩, ⟨5, none, 3⟩], ⟨false, ""⟩, 3⟩ :
          Except Nat ResponsePage)) 10 none 1
      ⟨3, [⟨0, none, 1⟩, ⟨0, none, 2⟩, ⟨5, none, 3⟩], false, false⟩
      [⟨10, none, 0⟩] rfl).1⟩

/-! ### Claim C6 -/

/-- C6: if the requester returns an error for any traced page request, the
invocation's outcome is exactly that error — `Except.error e`, i.e. the Go
pair `(nil, err)`: no partial result set is returned, no matter how many
records earlier pages produced. -/
theorem fetch_error_propagation {ε : Type} (r : Requester ε) (limit : Int)
    (a : Option Bool) (fuel : Nat)
    (out : Option (Except ε PullRequestAndTotalCount)) (tr : List PageRequest)
    (k : Nat) (e : ε)
    (h : fetchPullRequests r limit a fuel = (out, tr)) (hk : k < tr.length)
    (hresp : r (tr.get ⟨k, hk⟩).pageLimit (tr.get ⟨k, hk⟩).endCursor
      = .error e) :
    out = some (.error e) := by
  have h1 : ((fetchLoop r limit a fuel (initialPageLimit limit a) none
      initialState).1.map (fun x => x.map finalizeResult)) = out := congrArg Prod.fst h
  have h2 : (fetchLoop r limit a fuel (initialPageLimit limit a) none
      initialState).2 = tr := congrArg Prod.snd h
  subst h2
  have h3 := fetchLoop_error r limit a fuel (initialPageLimit limit a) none
    initialState
    ((fetchLoop r limit a fuel (initialPageLimit limit a) none initialState).1)
    ((fetchLoop r limit a fuel (initialPageLimit limit a) none initialState).2)
    k hk e rfl hresp
  rw [← h1, h3]
  rfl

/-- C6, witness: page one succeeds with one record, the second page request
fails with error 42 — the whole invocation returns error 42 and no result. -/
theorem fetch_error_propagation_witness :
    (fetchPullRequests (fun _ c => (match c with
        | none => Except.ok ⟨[⟨1, none, 0⟩], ⟨true, "c1"⟩, 5⟩
        | some _ => Except.error 42 : Except Nat ResponsePage)) 10 none 2
      = (some (.error 42), [⟨10, none, 0⟩, ⟨9, some "c1", 1⟩]))
    ∧ ((1 : Nat) < 2)
    ∧ ((some (Except.error 42) :
          Option (Except Nat PullRequestAndTotalCount))
        = some (Except.error 42)) :=
  ⟨rfl, by decide,
    fetch_error_propagation (fun _ c => (match c with
        | none => Except.ok ⟨[⟨1, none, 0⟩], ⟨true, "c1"⟩, 5⟩
        | some _ => Except.error 42 : Except Nat ResponsePage)) 10 none 2
      (some (.error 42)) [⟨10, none, 0⟩, ⟨9, some "c1", 1⟩] 1 42
      rfl (by decide) rfl⟩

/-! ### Claim C7 -/

/-- C7: with no inclusion predicate the first request uses page size
min(100, limit), and each subsequent request's size is at most the previous
request's size and at most limit minus the output length held when the
request was issued; with a predicate supplied every request uses page size
100 and the size is never shrunk. -/
theorem fetch_page_size_policy {ε : Type} (r : Requester ε) (limit : Int)
    (fuel : Nat) :
    (∀ (out : Option (Except ε PullRequestAndTotalCount))
        (tr : List PageRequest),
      fetchPullRequests r limit none fuel = (out, tr) →
      (∀ req, tr.head? = some req → req.pageLimit = goMin 100 limit) ∧
      List.Chain' (fun x y => y.pageLimit ≤ x.pageLimit ∧
        y.pageLimit ≤ limit - (y.outLen : Int)) tr) ∧
    (∀ (b : Bool) (out : Option (Except ε PullRequestAndTotalCount))
        (tr : List PageRequest),
      fetchPullRequests r limit (some b) fuel = (out, tr) →
      ∀ req ∈ tr, req.pageLimit = 100) := by
  constructor
  · intro out tr h
    have h2 : (fetchLoop r limit none fuel (initialPageLimit limit none) none
        initialState).2 = tr := congrArg Prod.snd h
    obtain ⟨hhead, hchain⟩ := fetchLoop_trace_none r limit fuel
      (initialPageLimit limit none) none initialState
      ((fetchLoop r limit none fuel (initialPageLimit limit none) none
        initialState).1)
      ((fetchLoop r limit none fuel (initialPageLimit limit none) none
        initialState).2) rfl
    rw [h2] at hhead hchain
    exact ⟨fun req hreq => (hhead req hreq).1, hchain⟩
  · intro b out tr h req hreq
    have h2 : (fetchLoop r limit (some b) fuel (initialPageLimit limit (some b))
        none initialState).2 = tr := congrArg Prod.snd h
    have := fetchLoop_trace_some r limit b fuel
      (initialPageLimit limit (some b)) none initialState
      ((fetchLoop r limit (some b) fuel (initialPageLimit limit (some b)) none
        initialState).1)
      ((fetchLoop r limit (some b) fuel (initialPageLimit limit (some b)) none
        initialState).2) rfl
    rw [h2] at this
    exact this req hreq

/-- C7, witness: a two-page no-filter run shrinks the page size from
min(100, 10) = 10 to 9 = 10 − 1; the same backend with a predicate keeps
every request at 100. -/
theorem fetch_page_size_policy_witness :
    (fetchPullRequests (fun _ c => (match c with
        | none => Except.ok ⟨[⟨1, none, 0⟩], ⟨true, "c1"⟩, 5⟩
        | some _ => Except.ok ⟨[⟨2, none, 0⟩], ⟨false, ""⟩, 5⟩ :
          Except Nat ResponsePage)) 10 none 2
      = (some (.ok ⟨5, [⟨1, none, 0⟩, ⟨2, none, 0⟩], false, false⟩),
          [⟨10, none, 0⟩, ⟨9, some "c1", 1⟩]))
    ∧ (∀ req, ([⟨10, none, 0⟩, ⟨9, some "c1", 1⟩] :
        List PageRequest).head? = some req → req.pageLimit = goMin 100 10)
    ∧ List.Chain' (fun x y => y.pageLimit ≤ x.pageLimit ∧
        y.pageLimit ≤ 10 - (y.outLen : Int))
        ([⟨10, none, 0⟩, ⟨9, some "c1", 1⟩] : List PageRequest)
    ∧ (fetchPullRequests (fun _ c => (match c with
        | none => Except.ok ⟨[⟨1, none, 0⟩], ⟨true, "c1"⟩, 5⟩
        | some _ => Except.ok ⟨[⟨2, none, 0⟩], ⟨false, ""⟩, 5⟩ :
          Except Nat ResponsePage)) 10 (some false) 2
      = (some (.ok ⟨5, [⟨1, none, 0⟩, ⟨2, none, 0⟩], false, false⟩),
          [⟨100, none, 0⟩, ⟨100, some "c1", 1⟩]))
    ∧ (∀ req ∈ ([⟨100, none, 0⟩, ⟨100, some "c1", 1⟩] : List PageRequest),
        req.pageLimit = 100) :=
  ⟨rfl,
    ((fetch_page_size_policy (fun _ c => (match c with
        | none => Except.ok ⟨[⟨1, none, 0⟩], ⟨true, "c1"⟩, 5⟩
        | some _ => Except.ok ⟨[⟨2, none, 0⟩], ⟨false, ""⟩, 5⟩ :
          Except Nat ResponsePage)) 10 2).1
      (some (.ok ⟨5, [⟨1, none, 0⟩, ⟨2, none, 0⟩], false, false⟩))
      [⟨10, none, 0⟩, ⟨9, some "c1", 1⟩] rfl).1,
    ((fetch_page_size_policy (fun _ c => (match c with
        | none => Except.ok ⟨[⟨1, none, 0⟩], ⟨true, "c1"⟩, 5⟩
        | some _ => Except.ok ⟨[⟨2, none, 0⟩], ⟨false, ""⟩, 5⟩ :
          Except Nat ResponsePage)) 10 2).1
      (some (.ok ⟨5, [⟨1, none, 0⟩, ⟨2, none, 0⟩], false, false⟩))
      [⟨10, none, 0⟩, ⟨9, some "c1", 1⟩] rfl).2,
    rfl,
    (fetch_page_size_policy (fun _ c => (match c with
        | none => Except.ok ⟨[⟨1, none, 0⟩], ⟨true, "c1"⟩, 5⟩
        | some _ => Except.ok ⟨[⟨2, none, 0⟩], ⟨false, ""⟩, 5⟩ :
          Except Nat ResponsePage)) 10 2).2 false
      (some (.ok ⟨5, [⟨1, none, 0⟩, ⟨2, none, 0⟩], false, false⟩))
      [⟨100, none, 0⟩, ⟨100, some "c1", 1⟩] rfl⟩

/-! ### Claim C8 -/

/-- C8: (i) with no predicate a processed (non-skipped) record breaks the
whole loop exactly when the output length equals the limit right after it is
handled; (ii) once the inner loop broke inside a prefix of a page the
remaining records of the page are not processed at all; (iii) with a
predicate supplied the inner loop never breaks mid-page, so the loop can only
stop at the post-page checks; (iv) when a page's processing breaks, the fetch
loop returns immediately and that page's request is the last of the trace. -/
theorem fetch_limit_stop :
    (∀ (limit : Int) (s : LoopState) (pr : PullRequest),
      ¬(pr.number ∈ s.check ∧ 0 < pr.number) →
      ((processNode none limit s pr).2 = true ↔
        (((processNode none limit s pr).1).res.pullRequests.length : Int)
          = limit))
    ∧ (∀ (a : Option Bool) (limit : Int) (s : LoopState)
        (l₁ l₂ : List PullRequest),
        (processNodes a limit s l₁).2 = true →
        processNodes a limit s (l₁ ++ l₂) = processNodes a limit s l₁)
    ∧ (∀ (b : Bool) (limit : Int) (s : LoopState) (l : List PullRequest),
        (processNodes (some b) limit s l).2 = false)
    ∧ (∀ (ε : Type) (r : Requester ε) (limit : Int) (fuel : Nat) (pl : Int)
        (cur : Option String) (s : LoopState) (p : ResponsePage),
        r pl cur = .ok p →
        (processNodes none limit (setTotal s p.totalCount) p.nodes).2 = true →
        fetchLoop r limit none (fuel + 1) pl cur s =
          (some (.ok
            (processNodes none limit (setTotal s p.totalCount) p.nodes).1),
            [⟨pl, cur, s.res.pullRequests.length⟩])) := by
  refine ⟨?_, ?_, ?_, ?_⟩
  · intro limit s pr hns
    rcases processNode_cases none limit s pr with ⟨hin, hpos, he⟩ |
      ⟨hskip, hrm, he⟩ | ⟨hskip, hrm, hlt, he⟩ | ⟨hskip, hrm, hge, he⟩
    · exact absurd ⟨hin, hpos⟩ hns
    · cases hrm
    · rw [he]
      simp
    · rw [he]
      simp
  · intro a limit s l₁ l₂ h
    induction l₁ generalizing s with
    | nil => cases h
    | cons pr rest ih =>
      cases hβ : (processNode a limit s pr).2 with
      | false =>
        rw [processNodes_cons_false a limit s pr rest hβ] at h
        rw [List.cons_append,
          processNodes_cons_false a limit s pr (rest ++ l₂) hβ,
          processNodes_cons_false a limit s pr rest hβ]
        exact ih _ h
      | true =>
        rw [List.cons_append,
          processNodes_cons_true a limit s pr (rest ++ l₂) hβ,
          processNodes_cons_true a limit s pr rest hβ]
  · exact fun b limit s l => processNodes_some_nobreak b limit l s
  · exact fun ε r limit fuel pl cur s p hr hb =>
      fetchLoop_succ_brk r limit none fuel pl cur s p hr hb

/-- C8, witness: with limit 1 and no predicate the first appended record
breaks the loop, the rest of the page is ignored and no second page is
requested; with a predicate the inner loop reports no break. -/
theorem fetch_limit_stop_witness :
    (¬((⟨1, none, 0⟩ : PullRequest).number ∈ initialState.check ∧
        0 < (⟨1, none, 0⟩ : PullRequest).number))
    ∧ ((processNode none 1 initialState ⟨1, none, 0⟩).2 = true ↔
        (((processNode none 1 initialState ⟨1, none, 0⟩).1).res.pullRequests.length : Int) = 1)
    ∧ (processNodes none 1 initialState
        ([⟨1, none, 0⟩] ++ [⟨2, none, 1⟩])
        = processNodes none 1 initialState [⟨1, none, 0⟩])
    ∧ ((processNodes (some true) 1 initialState
        [⟨1, none, 0⟩, ⟨2, some (), 1⟩]).2 = false)
    ∧ (fetchLoop (fun _ _ => (Except.ok
        ⟨[⟨1, none, 0⟩, ⟨2, none, 1⟩], ⟨true, "c"⟩, 5⟩ :
          Except Nat ResponsePage)) 1 none (0 + 1) 1 none initialState =
        (some (.ok (processNodes none 1
          (setTotal initialState
            (⟨[⟨1, none, 0⟩, ⟨2, none, 1⟩], ⟨true, "c"⟩, 5⟩ :
              ResponsePage).totalCount)
          (⟨[⟨1, none, 0⟩, ⟨2, none, 1⟩], ⟨true, "c"⟩, 5⟩ :
              ResponsePage).nodes).1),
          [⟨1, none, 0⟩])) :=
  ⟨by decide,
    fetch_limit_stop.1 1 initialState ⟨1, none, 0⟩ (by decide),
    fetch_limit_stop.2.1 none 1 initialState [⟨1, none, 0⟩] [⟨2, none, 1⟩] rfl,
    fetch_limit_stop.2.2.1 true 1 initialState [⟨1, none, 0⟩, ⟨2, some (), 1⟩],
    fetch_limit_stop.2.2.2 Nat (fun _ _ => (Except.ok
        ⟨[⟨1, none, 0⟩, ⟨2, none, 1⟩], ⟨true, "c"⟩, 5⟩ :
          Except Nat ResponsePage)) 1 0 1 none initialState
      ⟨[⟨1, none, 0⟩, ⟨2, none, 1⟩], ⟨true, "c"⟩, 5⟩ rfl rfl⟩

/-! ### Claim C9 -/

/-- C9: the output of a successful run is a sublist of the concatenated
stream of fetched records — it preserves the page-then-within-page order with
no reordering — and every output record with a positive identity key is the
first record of the stream bearing that key (first-seen order). -/
theorem fetch_order_first_seen {ε : Type} (r : Requester ε) (limit : Int)
    (a : Option Bool) (fuel : Nat) (res : PullRequestAndTotalCount)
    (tr : List PageRequest)
    (h : fetchPullRequests r limit a fuel = (some (.ok res), tr)) :
    res.pullRequests.Sublist (fetchedStream r tr) ∧
    ∀ x ∈ res.pullRequests, 0 < x.number →
      (fetchedStream r tr).find? (fun q => q.number == x.number) = some x := by
  obtain ⟨sF, hloop, hres⟩ := fetch_unpack r limit a fuel res tr h
  obtain ⟨t, ht1, ht2, ht3⟩ := fetchLoop_stream r limit a fuel
    (initialPageLimit limit a) none initialState sF tr hloop
  have hout : sF.res.pullRequests = t := by simpa [initialState] using ht1
  subst hres
  rw [finalizeResult_pullRequests, hout]
  exact ⟨ht2, fun x hx hxpos => (ht3 x hx hxpos).2⟩

/-- C9, witness: two pages with a duplicate of record 2 on the second page:
the output keeps first-seen order 1, 2, 3 taking the page-one occurrence of
record 2 (payload 12, not 99). -/
theorem fetch_order_first_seen_witness :
    (fetchPullRequests (fun _ c => (match c with
        | none => Except.ok ⟨[⟨1, none, 11⟩, ⟨2, none, 12⟩], ⟨true, "c1"⟩, 4⟩
        | some _ => Except.ok ⟨[⟨2, none, 99⟩, ⟨3, none, 13⟩], ⟨false, ""⟩, 4⟩ :
          Except Nat ResponsePage)) 10 none 2
      = (some (.ok ⟨4, [⟨1, none, 11⟩, ⟨2, none, 12⟩, ⟨3, none, 13⟩],
          false, false⟩),
          [⟨10, none, 0⟩, ⟨8, some "c1", 2⟩]))
    ∧ (([⟨1, none, 11⟩, ⟨2, none, 12⟩, ⟨3, none, 13⟩] :
        List PullRequest).Sublist
        (fetchedStream (fun _ c => (match c with
          | none => Except.ok ⟨[⟨1, none, 11⟩, ⟨2, none, 12⟩], ⟨true, "c1"⟩, 4⟩
          | some _ => Except.ok ⟨[⟨2, none, 99⟩, ⟨3, none, 13⟩], ⟨false, ""⟩, 4⟩ :
            Except Nat ResponsePage)) [⟨10, none, 0⟩, ⟨8, some "c1", 2⟩])
      ∧ ∀ x ∈ ([⟨1, none, 11⟩, ⟨2, none, 12⟩, ⟨3, none, 13⟩] :
          List PullRequest), 0 < x.number →
        (fetchedStream (fun _ c => (match c with
          | none => Except.ok ⟨[⟨1, none, 11⟩, ⟨2, none, 12⟩], ⟨true, "c1"⟩, 4⟩
          | some _ => Except.ok ⟨[⟨2, none, 99⟩, ⟨3, none, 13⟩], ⟨false, ""⟩, 4⟩ :
            Except Nat ResponsePage)) [⟨10, none, 0⟩, ⟨8, some "c1", 2⟩]).find?
          (fun q => q.number == x.number) = some x) :=
  ⟨rfl,
    fetch_order_first_seen (fun _ c => (match c with
        | none => Except.ok ⟨[⟨1, none, 11⟩, ⟨2, none, 12⟩], ⟨true, "c1"⟩, 4⟩
        | some _ => Except.ok ⟨[⟨2, none, 99⟩, ⟨3, none, 13⟩], ⟨false, ""⟩, 4⟩ :
          Except Nat ResponsePage)) 10 none 2
      ⟨4, [⟨1, none, 11⟩, ⟨2, none, 12⟩, ⟨3, none, 13⟩], false, false⟩
      [⟨10, none, 0⟩, ⟨8, some "c1", 2⟩] rfl⟩

/-! ### Claim C10 -/

/-- C10: when the requester fails, `fetchPullRequests` returns `(nil, err)`;
`searchPullRequests` then executes `res.SearchCapped = limit > 1000` on the
nil pointer without a nil check, a runtime nil-pointer-dereference panic —
instead of returning the error as the claim states.  Evaluated at the failing
input: a requester erroring on its first page, limit 30. -/
theorem search_nil_deref :
    ((fetchPullRequests (fun _ _ =>
        (Except.error 42 : Except Nat ResponsePage)) 30 none 1).1
      = some (.error 42))
    ∧ (searchPullRequests (fun _ _ =>
        (Except.error 42 : Except Nat ResponsePage)) 30 none 1
      = some GoCallOutcome.nilDerefPanic) :=
  ⟨rfl, rfl⟩

end PrList
